import Mathlib

/-!
Verification of the Flow Map Painter Blender addon (single Python module).

Shallow embedding conventions:
* Python floats are modelled by rationals; exact arithmetic stands in for
  IEEE arithmetic.  Where the modal event handler needs the possibility of a
  NaN channel (colors handed back by a direction-color routine), channels are
  wrapped in PyFloat, which has an explicit nan constructor.
* numpy.linalg.norm produces a square root, which is not rational in general.
  The comparisons the code makes with it (distance >= spacing,
  distance > 2 * spacing) and the truncation int(distance / spacing) are
  embedded by their exact squared-arithmetic equivalents; the lemmas
  substepsInt_eq_floor_dist, sq_le_sq_iff_of_nonneg and two_mul_lt_iff_sq
  record that for nonnegative operands these agree with the unsquared
  comparisons the Python source writes.  Encoder functions that divide by a
  computed norm instead take the norm as an explicit argument norm_factor;
  theorems constrain it by 0 <= norm_factor and norm_factor ^ 2 = the squared
  length of the direction vector, exactly the characterization of the value
  numpy computes.
* Host services with no algorithmic content in this repository are
  parameters: ray (the view ray cast of obj_ray_cast, screen position to
  optional object-space hit location and face index), bary
  (mathutils.geometry.barycentric_transform), and the world matrix and its
  inverse as functions on vectors.
* Python statements that raise (attribute access on None, list indexing out
  of range, unpacking None) are modelled with Except String; the string
  names the exception class.
* bpy.data.meshes and bpy.data.objects are modelled as lists of data-block
  names; bpy.data collections key data-blocks by name, removal removes one
  entry, removing an absent data-block raises.
-/

/-- A 2D screen or UV coordinate (a pair of floats in the source). -/
structure Vec2 where
  x : ℚ
  y : ℚ
  deriving DecidableEq, Repr

/-- A 3D vector (mathutils.Vector of length 3 in the source). -/
structure Vec3 where
  x : ℚ
  y : ℚ
  z : ℚ
  deriving DecidableEq, Repr

/-- Source lerp (line 48): linear interpolation, (b - a) * mix + a. -/
def lerp (mix a b : ℚ) : ℚ := (b - a) * mix + a

/-- Componentwise lerp on both axes, as the modal handler builds
lerp_paint_position (lines 412-417). -/
def vlerp (mix : ℚ) (a b : Vec2) : Vec2 := ⟨lerp mix a.x b.x, lerp mix a.y b.y⟩

/-- Squared Euclidean distance between two screen points.  The source
computes numpy.linalg.norm(furthest_position - mouse_position); the square
is the rational-valued quantity all comparisons are reduced to. -/
def distSq (a b : Vec2) : ℚ := (a.x - b.x) ^ 2 + (a.y - b.y) ^ 2

/-- Squared Euclidean length of the 3D difference of two points. -/
def dist3Sq (a b : Vec3) : ℚ := (a.x - b.x) ^ 2 + (a.y - b.y) ^ 2 + (a.z - b.z) ^ 2

/-- Source substeps_int = int(distance / brush_spacing) (lines 404-405),
computed from the squared distance: for spacing > 0 and distance >= 0,
int(distance / spacing) = Nat.sqrt (floor (distance ^ 2 / spacing ^ 2)).
The lemma substepsInt_eq_floor_dist proves this agreement. -/
def substepsInt (dSq spacing : ℚ) : ℕ := Nat.sqrt (Int.toNat ⌊dSq / spacing ^ 2⌋)

/-- The while loop of lines 409-419: substep_count runs from count down
to 1, each iteration painting one dot at mix = 1 / n * substep_count
interpolated between mouse_prev_position and mouse_position. -/
def paintSubsteps : ℕ → ℕ → Vec2 → Vec2 → List Vec2
  | 0, _, _, _ => []
  | c + 1, n, prev, pos =>
      vlerp (1 / (n : ℚ) * ((c + 1 : ℕ) : ℚ)) prev pos :: paintSubsteps c n prev pos

/-- A Python float as seen by the NaN guard of the modal handler: either a
NaN or a finite value. -/
inductive PyFloat where
  | nan : PyFloat
  | fin : ℚ → PyFloat
  deriving DecidableEq, Repr

/-- Model of numpy.isnan on a single value. -/
def PyFloat.isNaN : PyFloat → Bool
  | .nan => true
  | .fin _ => false

/-- The name-keyed data-block collections bpy.data.meshes and
bpy.data.objects, reduced to the lists of data-block names. -/
structure BData where
  meshes : List String
  objects : List String
  deriving DecidableEq, Repr

/-- Model of bpy.data.meshes.remove: removing an absent data-block raises
(ReferenceError in Blender). -/
def meshes_remove (nm : String) (d : BData) : Except String BData :=
  if nm ∈ d.meshes then .ok { d with meshes := d.meshes.erase nm }
  else .error "ReferenceError"

/-- Model of bpy.data.objects.remove: removing an absent data-block raises. -/
def objects_remove (nm : String) (d : BData) : Except String BData :=
  if nm ∈ d.objects then .ok { d with objects := d.objects.erase nm }
  else .error "ReferenceError"

/-- Source remove_temp_obj (lines 55-62): each removal is guarded by a
bpy.data get on the name, so an absent data-block is skipped rather than
removed (and the raising primitive is never reached). -/
def remove_temp_obj (d : BData) : Except String BData :=
  match (if "FLOWMAP_temp_mesh" ∈ d.meshes then meshes_remove "FLOWMAP_temp_mesh" d
         else .ok d) with
  | .error e => .error e
  | .ok d1 =>
      if "FLOWMAP_temp_obj" ∈ d1.objects then objects_remove "FLOWMAP_temp_obj" d1
      else .ok d1

/-- The total function remove_temp_obj actually computes; the lemma
remove_temp_obj_ok shows the Except-valued embedding always succeeds with
this result. -/
def remove_temp_obj_fn (d : BData) : BData :=
  let d1 := if "FLOWMAP_temp_mesh" ∈ d.meshes then
      { d with meshes := d.meshes.erase "FLOWMAP_temp_mesh" } else d
  if "FLOWMAP_temp_obj" ∈ d1.objects then
      { d1 with objects := d1.objects.erase "FLOWMAP_temp_obj" } else d1

/-- Source triangulate_object (lines 66-96) at the level of data-block
names.  It first calls remove_temp_obj, then creates a working copy of the
template object (copyObjName) with a copied mesh (copyMeshName), evaluates
the triangulate modifier into a fresh mesh data-block (evalMeshName, the
name new_from_object assigns, derived from the template's data name), links
a new object named FLOWMAP_temp_obj carrying that mesh (Blender would
suffix the name if it were still taken), and removes the working copy
object.  The name parameters stand for the host's fresh-name choices. -/
def triangulate_object (copyObjName copyMeshName evalMeshName : String) (d : BData) :
    BData × String :=
  let d0 := remove_temp_obj_fn d
  let d1 := { d0 with objects := d0.objects ++ [copyObjName] }
  let d2 := { d1 with meshes := d1.meshes ++ [copyMeshName] }
  let d3 := { d2 with meshes := d2.meshes ++ [evalMeshName] }
  let triName := if "FLOWMAP_temp_obj" ∈ d3.objects then "FLOWMAP_temp_obj.001"
                 else "FLOWMAP_temp_obj"
  let d4 := { d3 with objects := d3.objects ++ [triName] }
  let d5 := { d4 with objects := d4.objects.erase copyObjName }
  (d5, triName)

/-- Number of meshes named FLOWMAP_temp_mesh in the data. -/
def tempMeshCount (d : BData) : ℕ := d.meshes.count "FLOWMAP_temp_mesh"

/-- Number of objects named FLOWMAP_temp_obj in the data. -/
def tempObjCount (d : BData) : ℕ := d.objects.count "FLOWMAP_temp_obj"

/-- The data-touching operations of a tool session: startup runs
triangulate_object (its host-chosen fresh names are distinct from the
FLOWMAP temp names, since Blender derives them from the template data name
with a numeric suffix), and cleanup or cancel runs remove_temp_obj. -/
inductive SessionStep (d : BData) : BData → Prop where
  | startup (copyObjName copyMeshName evalMeshName : String)
      (hm1 : copyMeshName ≠ "FLOWMAP_temp_mesh")
      (hm2 : evalMeshName ≠ "FLOWMAP_temp_mesh")
      (ho1 : copyObjName ≠ "FLOWMAP_temp_obj") :
      SessionStep d (triangulate_object copyObjName copyMeshName evalMeshName d).1
  | cleanup : SessionStep d (remove_temp_obj_fn d)

/-- Scene-level state the modal handler reads and writes:
flowmap_brush_spacing, the unified paint settings color, and bpy.data. -/
structure Scene where
  flowmap_brush_spacing : ℚ
  color : List PyFloat
  data : BData
  deriving DecidableEq, Repr

/-- Operator state of FlowmapOperator: furthest_position,
mouse_prev_position, pressing. -/
structure OpState where
  furthest_position : Vec2
  mouse_prev_position : Vec2
  pressing : Bool
  deriving DecidableEq, Repr

/-- Input events the modal handler branches on: LEFTMOUSE press, LEFTMOUSE
release, MOUSEMOVE (carrying the mouse position), ESC, anything else. -/
inductive Event where
  | press : Vec2 → Event
  | release : Event
  | mousemove : Vec2 → Event
  | esc : Event
  | other : Event
  deriving DecidableEq, Repr

/-- Return value of the modal handler. -/
inductive MRes where
  | running : MRes
  | finished : MRes
  | passthrough : MRes
  deriving DecidableEq, Repr

/-- Source FlowmapOperator.modal (lines 370-436).  gdc is the subclass
get_direction_color (position and previous position to optional color and
optional 3D paint location); cleanup is the subclass cleanup hook applied
to bpy.data (identity for the image editor operator, remove_temp_obj_fn
for the 3D viewport operator).  The result lists the screen positions at
which paint_a_dot is invoked for this event. -/
def modal (gdc : Vec2 → Vec2 → Option (List PyFloat) × Option Vec3)
    (cleanup : BData → BData) (s : OpState) (sc : Scene) :
    Event → OpState × Scene × List Vec2 × MRes
  | .press pos => ({ s with furthest_position := pos, pressing := true }, sc, [], .running)
  | .release => ({ s with pressing := false }, sc, [], .running)
  | .mousemove pos =>
      if sc.flowmap_brush_spacing ^ 2 ≤ distSq s.furthest_position pos then
        let sc1 :=
          match (gdc pos s.mouse_prev_position).1 with
          | none => sc
          | some c => if c.any (fun v => v.isNaN) then sc else { sc with color := c }
        let dots :=
          if s.pressing then
            if 4 * sc.flowmap_brush_spacing ^ 2 < distSq s.furthest_position pos then
              paintSubsteps (substepsInt (distSq s.furthest_position pos) sc.flowmap_brush_spacing)
                (substepsInt (distSq s.furthest_position pos) sc.flowmap_brush_spacing)
                s.mouse_prev_position pos
            else [pos]
          else []
        ({ s with furthest_position := pos, mouse_prev_position := pos }, sc1, dots, .running)
      else (s, sc, [], .running)
  | .esc =>
      (s, { sc with color := [.fin (1 / 2), .fin (1 / 2), .fin (1 / 2)],
                    data := cleanup sc.data }, [], .finished)
  | .other => (s, sc, [], .passthrough)

/-- Processing of a whole event stream by the modal handler, collecting all
painted dot positions in order. -/
def modalRun (gdc : Vec2 → Vec2 → Option (List PyFloat) × Option Vec3)
    (cleanup : BData → BData) : OpState → Scene → List Event →
    OpState × Scene × List Vec2
  | s, sc, [] => (s, sc, [])
  | s, sc, ev :: rest =>
      let r := modal gdc cleanup s sc ev
      let r2 := modalRun gdc cleanup r.1 r.2.1 rest
      (r2.1, r2.2.1, r.2.2.1 ++ r2.2.2)

/-- Host contract for the view ray cast performed by obj_ray_cast
(lines 100-129): an area position resolves to an object-space hit location
and a face index, or to no hit. -/
def Ray : Type := Vec2 → Option (Vec3 × ℕ)

/-- Host contract for mathutils.geometry.barycentric_transform: point, the
three source triangle corners, the three target triangle corners. -/
def Bary : Type := Vec3 → Vec3 → Vec3 → Vec3 → Vec3 → Vec3 → Vec3 → Vec3

/-- A polygon of the triangulated mesh: parallel lists of vertex indices
and loop indices, as bpy polygons expose them. -/
structure PolyFace where
  vertices : List ℕ
  loop_indices : List ℕ
  deriving DecidableEq, Repr

/-- The mesh data consulted by pos_to_uv_co: polygons, vertex coordinates,
and the active UV layer (None when the mesh carries no UV layer; otherwise
the per-loop UV table). -/
structure MeshData where
  polygons : List PolyFace
  vertices : List Vec3
  uv_layers_active : Option (List Vec2)
  deriving DecidableEq, Repr

/-- The fields of a bpy object the traced code reads: its type string and
its world matrix with inverse, as functions on points. -/
structure ObjInfo where
  type : String
  matrix_world : Vec3 → Vec3
  matrix_world_inv : Vec3 → Vec3

/-- Model of mathutils Vector.to_3d on a 2D UV coordinate. -/
def uv_to_3d (uv : Vec2) : Vec3 := ⟨uv.x, uv.y, 0⟩

/-- The loop of pos_to_uv_co (lines 160-164) over zip(face.vertices,
face.loop_indices).  Each iteration first reads
obj.data.uv_layers.active.data[loop_idx].uv, which raises AttributeError
when the active UV layer is None and IndexError on a bad loop index, then
appends matrix_world applied to the vertex coordinate and the UV lifted
to 3D. -/
def pos_to_uv_co_loop (uvA : Option (List Vec2)) (mw : Vec3 → Vec3) (verts : List Vec3) :
    List (ℕ × ℕ) → Except String (List Vec3 × List Vec3)
  | [] => .ok ([], [])
  | (vert_idx, loop_idx) :: rest =>
      match uvA with
      | none => .error "AttributeError"
      | some uvdata =>
          match uvdata.get? loop_idx with
          | none => .error "IndexError"
          | some uv =>
              match verts.get? vert_idx with
              | none => .error "IndexError"
              | some co =>
                  match pos_to_uv_co_loop uvA mw verts rest with
                  | .error e => .error e
                  | .ok r => .ok (mw co :: r.1, uv_to_3d uv :: r.2)

/-- Source pos_to_uv_co (lines 152-177): look up the hit polygon, gather
its world-space corners and UV corners, and apply barycentric_transform to
the hit position.  Failure modes are Python exceptions, not None. -/
def pos_to_uv_co (bary : Bary) (obj : MeshData) (matrix_world : Vec3 → Vec3)
    (world_pos : Vec3) (face_index : ℕ) : Except String Vec3 :=
  match obj.polygons.get? face_index with
  | none => .error "IndexError"
  | some face =>
      match pos_to_uv_co_loop obj.uv_layers_active matrix_world obj.vertices
          (face.vertices.zip face.loop_indices) with
      | .error e => .error e
      | .ok r =>
          match r.1.get? 0, r.1.get? 1, r.1.get? 2,
                r.2.get? 0, r.2.get? 1, r.2.get? 2 with
          | some a, some b, some c, some ua, some ub, some uc =>
              .ok (bary world_pos a b c ua ub uc)
          | _, _, _, _, _, _ => .error "IndexError"

/-- Source line_trace_for_uv (lines 149-193): on a mesh active object, cast
the ray; on a hit, resolve the hit to UV coordinates via pos_to_uv_co
(whose exceptions propagate); otherwise both results stay None. -/
def line_trace_for_uv (bary : Bary) (ray : Ray) (active : ObjInfo) (tri : MeshData)
    (area_pos : Vec2) : Except String (Option Vec3 × Option Vec3) :=
  if active.type = "MESH" then
    match ray area_pos with
    | some hb =>
        match pos_to_uv_co bary tri active.matrix_world (active.matrix_world hb.1) hb.2 with
        | .error e => .error e
        | .ok uv_co => .ok (some uv_co, some hb.1)
    | none => .ok (none, none)
  else .ok (none, none)

/-- Source get_uv_space_direction_color (lines 146-219).  norm_factor is
the value numpy.linalg.norm computes for the UV direction vector; theorems
constrain it to the square root of the squared UV delta. -/
def get_uv_space_direction_color (bary : Bary) (ray : Ray) (active : ObjInfo)
    (tri : MeshData) (area_pos area_prev_pos : Vec2) (norm_factor : ℚ) :
    Except String (Option (List ℚ) × Option Vec3) :=
  match line_trace_for_uv bary ray active tri area_pos with
  | .error e => .error e
  | .ok r1 =>
      match line_trace_for_uv bary ray active tri area_prev_pos with
      | .error e => .error e
      | .ok r2 =>
          match r1.1, r2.1 with
          | some uv_pos, some uv_prev_pos =>
              let vx := uv_pos.x - uv_prev_pos.x
              let vy := uv_pos.y - uv_prev_pos.y
              if norm_factor = 0 then .ok (none, none)
              else .ok (some [(vx / norm_factor + 1) * (1 / 2),
                              (vy / norm_factor + 1) * (1 / 2), 0], r1.2)
          | _, _ => .ok (none, none)

/-- Source line_trace_for_pos (lines 133-142): on a mesh active object it
returns the pair of object-space and world-space hit (each possibly None);
on any other object type the function falls off its end and returns a bare
None, modelled as the outer none. -/
def line_trace_for_pos (ray : Ray) (active : ObjInfo) (area_pos : Vec2) :
    Option (Option Vec3 × Option Vec3) :=
  if active.type = "MESH" then
    some (match ray area_pos with
          | some hb => (some hb.1, some (active.matrix_world hb.1))
          | none => (none, none))
  else none

/-- Resolution of the object-space reference object (lines 233-235): the
configured flowmap_object if set, else the active object. -/
def objOf (flowmap_object : Option ObjInfo) (active : ObjInfo) : ObjInfo :=
  match flowmap_object with
  | some o => o
  | none => active

/-- Source get_obj_space_direction_color (lines 223-258).  The two
line_trace_for_pos results are unpacked into two variables; a bare None
(non-mesh active object) raises TypeError at the unpacking. -/
def get_obj_space_direction_color (ray : Ray) (active : ObjInfo)
    (flowmap_object : Option ObjInfo) (area_pos area_prev_pos : Vec2)
    (norm_factor : ℚ) : Except String (Option (List ℚ) × Option Vec3) :=
  match line_trace_for_pos ray active area_pos with
  | none => .error "TypeError"
  | some r1 =>
      match line_trace_for_pos ray active area_prev_pos with
      | none => .error "TypeError"
      | some r2 =>
          match r1.2, r2.2 with
          | some hit_world, some prev_hit_world =>
              let obj := objOf flowmap_object active
              let hit_obj := obj.matrix_world_inv hit_world
              let prev_hit_obj := obj.matrix_world_inv prev_hit_world
              let vx := hit_obj.x - prev_hit_obj.x
              let vy := hit_obj.y - prev_hit_obj.y
              let vz := hit_obj.z - prev_hit_obj.z
              if norm_factor = 0 then .ok (none, none)
              else .ok (some [(vx / norm_factor + 1) * (1 / 2),
                              (vy / norm_factor + 1) * (1 / 2),
                              (vz / norm_factor + 1) * (1 / 2)], r1.1)
          | _, _ => .ok (none, none)

/-- Source get_world_space_direction_color (lines 262-289): as the object
space variant but on the world-space hits directly. -/
def get_world_space_direction_color (ray : Ray) (active : ObjInfo)
    (area_pos area_prev_pos : Vec2) (norm_factor : ℚ) :
    Except String (Option (List ℚ) × Option Vec3) :=
  match line_trace_for_pos ray active area_pos with
  | none => .error "TypeError"
  | some r1 =>
      match line_trace_for_pos ray active area_prev_pos with
      | none => .error "TypeError"
      | some r2 =>
          match r1.2, r2.2 with
          | some hit_world, some prev_hit_world =>
              let vx := hit_world.x - prev_hit_world.x
              let vy := hit_world.y - prev_hit_world.y
              let vz := hit_world.z - prev_hit_world.z
              if norm_factor = 0 then .ok (none, none)
              else .ok (some [(vx / norm_factor + 1) * (1 / 2),
                              (vy / norm_factor + 1) * (1 / 2),
                              (vz / norm_factor + 1) * (1 / 2)], r1.1)
          | _, _ => .ok (none, none)

/-- Source FLOWMAP_OT_image_editor.get_direction_color (lines 490-502), the
screen-space encoder: on a zero norm it substitutes the zero vector and
still returns a color, the pair (0.5, 0.5, 0); it never returns None. -/
def FLOWMAP_OT_image_editor.get_direction_color (mouse mouse_prev : Vec2)
    (norm_factor : ℚ) : List ℚ × Option Vec3 :=
  let vx := mouse.x - mouse_prev.x
  let vy := mouse.y - mouse_prev.y
  let ux := if norm_factor = 0 then 0 else vx / norm_factor
  let uy := if norm_factor = 0 then 0 else vy / norm_factor
  ([(ux + 1) * (1 / 2), (uy + 1) * (1 / 2), 0], none)

/-! Supporting lemmas. -/

/-- The guarded removal of remove_temp_obj never reaches a raising
primitive: it always succeeds, computing remove_temp_obj_fn. -/
theorem remove_temp_obj_ok (d : BData) : remove_temp_obj d = .ok (remove_temp_obj_fn d) := by
  unfold remove_temp_obj remove_temp_obj_fn meshes_remove objects_remove
  by_cases h1 : "FLOWMAP_temp_mesh" ∈ d.meshes <;> simp only [h1, if_true, if_false] <;>
    split <;> simp_all

theorem distSq_nonneg (a b : Vec2) : 0 ≤ distSq a b := by
  unfold distSq; positivity

theorem distSq_eq_zero_iff (a b : Vec2) : distSq a b = 0 ↔ a = b := by
  unfold distSq
  constructor
  · intro h
    have hx : (a.x - b.x) ^ 2 = 0 := le_antisymm (by nlinarith [sq_nonneg (a.y - b.y)]) (sq_nonneg _)
    have hy : (a.y - b.y) ^ 2 = 0 := le_antisymm (by nlinarith [sq_nonneg (a.x - b.x)]) (sq_nonneg _)
    have hx0 : a.x = b.x := by have := pow_eq_zero_iff (n := 2) (by norm_num) |>.mp hx; linarith
    have hy0 : a.y = b.y := by have := pow_eq_zero_iff (n := 2) (by norm_num) |>.mp hy; linarith
    cases a; cases b; simp_all
  · intro h; subst h; ring

/-- For nonnegative operands, the squared comparison the embedding makes is
the comparison the source makes on the distances themselves. -/
theorem sq_le_sq_iff_of_nonneg {a b : ℚ} (ha : 0 ≤ a) (hb : 0 ≤ b) :
    a ^ 2 ≤ b ^ 2 ↔ a ≤ b :=
  pow_le_pow_iff_left₀ ha hb (by norm_num)

/-- Strict version of the squared comparison agreement. -/
theorem sq_lt_sq_iff_of_nonneg {a b : ℚ} (ha : 0 ≤ a) (hb : 0 ≤ b) :
    a ^ 2 < b ^ 2 ↔ a < b :=
  pow_lt_pow_iff_left₀ ha hb (by norm_num)

/-- Characterization of substepsInt by squared bounds: if
n * spacing <= distance < (n + 1) * spacing, stated in squares, then
substepsInt computes n, which is int(distance / spacing). -/
theorem substepsInt_eq {dSq spacing : ℚ} {n : ℕ} (hsp : 0 < spacing)
    (h1 : (n : ℚ) ^ 2 * spacing ^ 2 ≤ dSq)
    (h2 : dSq < ((n : ℚ) + 1) ^ 2 * spacing ^ 2) :
    substepsInt dSq spacing = n := by
  have hsp2 : 0 < spacing ^ 2 := by positivity
  have hq1 : (n : ℚ) ^ 2 ≤ dSq / spacing ^ 2 := by
    rw [le_div_iff₀ hsp2]; linarith
  have hq2 : dSq / spacing ^ 2 < ((n : ℚ) + 1) ^ 2 := by
    rw [div_lt_iff₀ hsp2]; linarith
  have hfl1 : (n : ℤ) ^ 2 ≤ ⌊dSq / spacing ^ 2⌋ := by
    apply Int.le_floor.mpr; push_cast; exact hq1
  have hfl2 : ⌊dSq / spacing ^ 2⌋ < ((n : ℤ) + 1) ^ 2 := by
    apply Int.floor_lt.mpr; push_cast; exact hq2
  have h0 : (0 : ℤ) ≤ ⌊dSq / spacing ^ 2⌋ := le_trans (by positivity) hfl1
  have hmz : (Int.toNat ⌊dSq / spacing ^ 2⌋ : ℤ) = ⌊dSq / spacing ^ 2⌋ := Int.toNat_of_nonneg h0
  have hm1 : n * n ≤ Int.toNat ⌊dSq / spacing ^ 2⌋ := by
    have : ((n * n : ℕ) : ℤ) ≤ (Int.toNat ⌊dSq / spacing ^ 2⌋ : ℤ) := by
      rw [hmz]; push_cast; nlinarith [hfl1]
    exact_mod_cast this
  have hm2 : Int.toNat ⌊dSq / spacing ^ 2⌋ < (n + 1) * (n + 1) := by
    have : (Int.toNat ⌊dSq / spacing ^ 2⌋ : ℤ) < (((n + 1) * (n + 1) : ℕ) : ℤ) := by
      rw [hmz]; push_cast; nlinarith [hfl2]
    exact_mod_cast this
  unfold substepsInt
  have hle : n ≤ Nat.sqrt (Int.toNat ⌊dSq / spacing ^ 2⌋) := Nat.le_sqrt.mpr hm1
  have hlt : Nat.sqrt (Int.toNat ⌊dSq / spacing ^ 2⌋) < n + 1 := Nat.sqrt_lt.mpr hm2
  omega

/-- For any exactly representable distance, substepsInt applied to the
squared distance is the floor of distance / spacing, the value the Python
source computes as int(distance / brush_spacing). -/
theorem substepsInt_eq_floor_dist (dist spacing : ℚ) (hd : 0 ≤ dist) (hsp : 0 < spacing) :
    (substepsInt (dist ^ 2) spacing : ℤ) = ⌊dist / spacing⌋ := by
  have h0 : (0 : ℤ) ≤ ⌊dist / spacing⌋ := Int.le_floor.mpr (by positivity)
  set n : ℕ := Int.toNat ⌊dist / spacing⌋ with hn
  have hnz : (n : ℤ) = ⌊dist / spacing⌋ := Int.toNat_of_nonneg h0
  have hfl1 : (n : ℚ) ≤ dist / spacing := by
    have := Int.floor_le (dist / spacing)
    rw [← hnz] at this; exact_mod_cast this
  have hfl2 : dist / spacing < (n : ℚ) + 1 := by
    have := Int.lt_floor_add_one (dist / spacing)
    rw [← hnz] at this; exact_mod_cast this
  have hb1 : (n : ℚ) * spacing ≤ dist := by
    rw [le_div_iff₀ hsp] at hfl1; linarith
  have hb2 : dist < ((n : ℚ) + 1) * spacing := by
    rw [div_lt_iff₀ hsp] at hfl2; linarith
  have heq : substepsInt (dist ^ 2) spacing = n := by
    apply substepsInt_eq hsp
    · nlinarith [mul_nonneg (Nat.cast_nonneg (α := ℚ) n) hsp.le]
    · nlinarith [mul_nonneg (Nat.cast_nonneg (α := ℚ) n) hsp.le, hsp.le]
  rw [heq, hnz]

/-- Closed form of the substep while loop: counting substep_count down
from c emits the dots at interpolation mixes (c - j) / n for j = 0, 1, ...
in emission order. -/
theorem paintSubsteps_eq_range (c n : ℕ) (a b : Vec2) :
    paintSubsteps c n a b =
      (List.range c).map (fun j => vlerp (((c - j : ℕ) : ℚ) / (n : ℚ)) a b) := by
  induction c with
  | zero => simp [paintSubsteps]
  | succ k ih =>
      rw [paintSubsteps, ih, List.range_succ_eq_map]
      simp only [List.map_cons, List.map_map]
      have hhead : vlerp (1 / (n : ℚ) * ((k + 1 : ℕ) : ℚ)) a b =
          vlerp (((k + 1 - 0 : ℕ) : ℚ) / (n : ℚ)) a b := by
        rw [Nat.sub_zero, one_div, inv_mul_eq_div]
      rw [hhead]
      congr 1
      apply List.map_congr_left
      intro j hj
      simp only [Function.comp]
      congr 3
      omega

/-- Each channel (v / n + 1) * (1 / 2) of an encoded direction lies in
the unit interval when v ^ 2 is bounded by n ^ 2. -/
theorem chan_bound {v n : ℚ} (hn0 : 0 ≤ n) (hne : n ≠ 0) (hv : v ^ 2 ≤ n ^ 2) :
    0 ≤ (v / n + 1) * (1 / 2) ∧ (v / n + 1) * (1 / 2) ≤ 1 := by
  have hn : 0 < n := lt_of_le_of_ne hn0 (Ne.symm hne)
  have hub : v ≤ n := by nlinarith [sq_nonneg (v - n), sq_nonneg (v + n)]
  have hlb : -n ≤ v := by nlinarith [sq_nonneg (v - n), sq_nonneg (v + n)]
  have h1 : v / n ≤ 1 := (div_le_one hn).mpr hub
  have h2 : -1 ≤ v / n := by rw [le_div_iff₀ hn]; linarith
  constructor <;> linarith

theorem remove_temp_obj_fn_meshes (d : BData) :
    (remove_temp_obj_fn d).meshes =
      if "FLOWMAP_temp_mesh" ∈ d.meshes then d.meshes.erase "FLOWMAP_temp_mesh"
      else d.meshes := by
  unfold remove_temp_obj_fn
  by_cases h1 : "FLOWMAP_temp_mesh" ∈ d.meshes <;> simp only [h1, if_true, if_false] <;>
    split <;> rfl

theorem remove_temp_obj_fn_objects (d : BData) :
    (remove_temp_obj_fn d).objects =
      if "FLOWMAP_temp_obj" ∈ d.objects then d.objects.erase "FLOWMAP_temp_obj"
      else d.objects := by
  unfold remove_temp_obj_fn
  by_cases h1 : "FLOWMAP_temp_mesh" ∈ d.meshes <;> simp only [h1, if_true, if_false] <;>
    by_cases h2 : "FLOWMAP_temp_obj" ∈ d.objects <;> simp [h2]

theorem guardedErase_count_zero (l : List String) (a : String) (h : l.count a ≤ 1) :
    (if a ∈ l then l.erase a else l).count a = 0 := by
  by_cases hm : a ∈ l
  · rw [if_pos hm, List.count_erase_self]
    have := List.count_pos_iff.mpr hm
    omega
  · rw [if_neg hm]
    exact List.count_eq_zero.mpr hm

theorem guardedErase_count_le (l : List String) (a : String) :
    (if a ∈ l then l.erase a else l).count a ≤ l.count a := by
  by_cases hm : a ∈ l
  · rw [if_pos hm, List.count_erase_self]; omega
  · rw [if_neg hm]

theorem tempMeshCount_remove_fn (d : BData) (h : tempMeshCount d ≤ 1) :
    tempMeshCount (remove_temp_obj_fn d) = 0 := by
  unfold tempMeshCount at *
  rw [remove_temp_obj_fn_meshes]
  exact guardedErase_count_zero _ _ h

theorem tempObjCount_remove_fn (d : BData) (h : tempObjCount d ≤ 1) :
    tempObjCount (remove_temp_obj_fn d) = 0 := by
  unfold tempObjCount at *
  rw [remove_temp_obj_fn_objects]
  exact guardedErase_count_zero _ _ h

theorem triangulate_counts (copyObjName copyMeshName evalMeshName : String) (d : BData)
    (hm1 : copyMeshName ≠ "FLOWMAP_temp_mesh") (hm2 : evalMeshName ≠ "FLOWMAP_temp_mesh")
    (ho1 : copyObjName ≠ "FLOWMAP_temp_obj")
    (hm : tempMeshCount d ≤ 1) (ho : tempObjCount d ≤ 1) :
    tempMeshCount (triangulate_object copyObjName copyMeshName evalMeshName d).1 = 0 ∧
    tempObjCount (triangulate_object copyObjName copyMeshName evalMeshName d).1 = 1 := by
  have h1 : tempMeshCount (remove_temp_obj_fn d) = 0 := tempMeshCount_remove_fn d hm
  have h2 : tempObjCount (remove_temp_obj_fn d) = 0 := tempObjCount_remove_fn d ho
  unfold tempMeshCount tempObjCount at *
  unfold triangulate_object
  have hnotmem : "FLOWMAP_temp_obj" ∉ (remove_temp_obj_fn d).objects ++ [copyObjName] := by
    rw [List.mem_append]
    push_neg
    exact ⟨List.count_eq_zero.mp h2, by simpa using Ne.symm ho1⟩
  simp only [hnotmem, if_neg, if_false]
  constructor
  · simp [List.count_append, h1, List.count_cons, hm1, hm2, Ne.symm hm1, Ne.symm hm2]
  · rw [List.count_erase_of_ne (by exact fun hh => ho1 hh.symm)]
    simp [List.count_append, h2, List.count_cons, Ne.symm ho1]

/-! Claim theorems. -/

/-- C9: at every point during a tool session at most one mesh named
FLOWMAP_temp_mesh and at most one object named FLOWMAP_temp_obj exist:
triangulate_object unconditionally removes any pre-existing temporary data
before creating new data-blocks, so any sequence of startups and cleanups
preserves the at-most-one bound on both temp names. -/
theorem temp_data_at_most_one (d d' : BData)
    (hsteps : Relation.ReflTransGen SessionStep d d')
    (h0 : tempMeshCount d ≤ 1 ∧ tempObjCount d ≤ 1) :
    tempMeshCount d' ≤ 1 ∧ tempObjCount d' ≤ 1 := by
  induction hsteps with
  | refl => exact h0
  | tail hab hbc ih =>
      cases hbc with
      | startup c1 c2 c3 hm1 hm2 ho1 =>
          obtain ⟨hm, ho⟩ := triangulate_counts c1 c2 c3 _ hm1 hm2 ho1 ih.1 ih.2
          omega
      | cleanup =>
          refine ⟨?_, ?_⟩
          · unfold tempMeshCount
            rw [remove_temp_obj_fn_meshes]
            exact le_trans (guardedErase_count_le _ _) ih.1
          · unfold tempObjCount
            rw [remove_temp_obj_fn_objects]
            exact le_trans (guardedErase_count_le _ _) ih.2

theorem temp_data_at_most_one_witness :
    (tempMeshCount ⟨["Cube"], ["Cube"]⟩ ≤ 1 ∧ tempObjCount ⟨["Cube"], ["Cube"]⟩ ≤ 1) ∧
    tempMeshCount (triangulate_object "Cube.001" "Cube.001" "Cube.002" ⟨["Cube"], ["Cube"]⟩).1 ≤ 1 ∧
    tempObjCount (triangulate_object "Cube.001" "Cube.001" "Cube.002" ⟨["Cube"], ["Cube"]⟩).1 ≤ 1 :=
  ⟨⟨by decide, by decide⟩,
    temp_data_at_most_one ⟨["Cube"], ["Cube"]⟩
      (triangulate_object "Cube.001" "Cube.001" "Cube.002" ⟨["Cube"], ["Cube"]⟩).1
      (Relation.ReflTransGen.single
        (SessionStep.startup "Cube.001" "Cube.001" "Cube.002"
          (by decide) (by decide) (by decide)))
      ⟨by decide, by decide⟩⟩

/-- C8: a LEFTMOUSE release event only clears the pressing flag; the
furthest position and previous mouse position (and the scene) are left
unchanged, no dot is painted, and the handler keeps running. -/
theorem release_only_clears_pressing
    (gdc : Vec2 → Vec2 → Option (List PyFloat) × Option Vec3) (cleanup : BData → BData)
    (s : OpState) (sc : Scene) :
    modal gdc cleanup s sc Event.release =
      (⟨s.furthest_position, s.mouse_prev_position, false⟩, sc, [], MRes.running) := rfl

theorem modal_no_move (gdc : Vec2 → Vec2 → Option (List PyFloat) × Option Vec3)
    (cleanup : BData → BData) (s : OpState) (sc : Scene) (p : Vec2)
    (h : distSq s.furthest_position p < sc.flowmap_brush_spacing ^ 2) :
    modal gdc cleanup s sc (Event.mousemove p) = (s, sc, [], MRes.running) := by
  simp only [modal]
  rw [if_neg (not_le.mpr h)]

theorem modalRun_no_move (gdc : Vec2 → Vec2 → Option (List PyFloat) × Option Vec3)
    (cleanup : BData → BData) (s : OpState) (sc : Scene) (ps : List Vec2)
    (h : ∀ p ∈ ps, distSq s.furthest_position p < sc.flowmap_brush_spacing ^ 2) :
    modalRun gdc cleanup s sc (ps.map Event.mousemove) = (s, sc, []) := by
  revert h
  induction ps with
  | nil => intro _; rfl
  | cons p rest ih =>
      intro h
      have hstep := modal_no_move gdc cleanup s sc p (h p (by simp))
      have hrest := ih (fun q hq => h q (by simp [hq]))
      simp only [List.map_cons, modalRun, hstep, hrest]
      rfl

/-- C5: over a sequence of position updates whose distances (from the
unchanged furthest position, the distance the handler computes on each
consecutive event) all stay strictly below the spacing threshold, no dot
is painted and furthest_position never changes. -/
theorem below_spacing_emits_nothing
    (gdc : Vec2 → Vec2 → Option (List PyFloat) × Option Vec3) (cleanup : BData → BData)
    (s : OpState) (sc : Scene) (ps : List Vec2)
    (hsp : 0 ≤ sc.flowmap_brush_spacing)
    (h : ∀ p ∈ ps, distSq s.furthest_position p < sc.flowmap_brush_spacing ^ 2) :
    (modalRun gdc cleanup s sc (ps.map Event.mousemove)).2.2 = [] ∧
    (modalRun gdc cleanup s sc (ps.map Event.mousemove)).1.furthest_position =
      s.furthest_position := by
  rw [modalRun_no_move gdc cleanup s sc ps h]
  exact ⟨rfl, rfl⟩

theorem below_spacing_emits_nothing_witness :
    (0 : ℚ) ≤ 10 ∧
    (∀ p ∈ [(⟨1, 0⟩ : Vec2), ⟨2, 2⟩, ⟨0, 3⟩], distSq ⟨0, 0⟩ p < (10 : ℚ) ^ 2) ∧
    (modalRun (fun _ _ => (none, none)) id ⟨⟨0, 0⟩, ⟨5, 5⟩, true⟩ ⟨10, [], ⟨[], []⟩⟩
        ([(⟨1, 0⟩ : Vec2), ⟨2, 2⟩, ⟨0, 3⟩].map Event.mousemove)).2.2 = [] ∧
    (modalRun (fun _ _ => (none, none)) id ⟨⟨0, 0⟩, ⟨5, 5⟩, true⟩ ⟨10, [], ⟨[], []⟩⟩
        ([(⟨1, 0⟩ : Vec2), ⟨2, 2⟩, ⟨0, 3⟩].map Event.mousemove)).1.furthest_position = ⟨0, 0⟩ :=
  ⟨by norm_num,
    by intro p hp; fin_cases hp <;> norm_num [distSq],
    below_spacing_emits_nothing _ _ _ _ _ (by norm_num)
      (by intro p hp; fin_cases hp <;> norm_num [distSq])⟩

/-- C4: on a position-update event the brush color is written only when the
computed direction color is not None and has no NaN channel; in every other
case the scene color is left unchanged, so a NaN channel never reaches the
brush color. -/
theorem nan_guard_brush_color
    (gdc : Vec2 → Vec2 → Option (List PyFloat) × Option Vec3) (cleanup : BData → BData)
    (s : OpState) (sc : Scene) (pos : Vec2) :
    (modal gdc cleanup s sc (Event.mousemove pos)).2.1.color = sc.color ∨
    ∃ c, (gdc pos s.mouse_prev_position).1 = some c ∧
      c.any (fun v => v.isNaN) = false ∧
      (modal gdc cleanup s sc (Event.mousemove pos)).2.1.color = c := by
  simp only [modal]
  by_cases hd : sc.flowmap_brush_spacing ^ 2 ≤ distSq s.furthest_position pos
  · rw [if_pos hd]
    cases hg : (gdc pos s.mouse_prev_position).1 with
    | none => left; simp [hg]
    | some c =>
        by_cases hn : c.any (fun v => v.isNaN)
        · left; simp [hg, hn]
        · right
          refine ⟨c, rfl, by simpa using hn, ?_⟩
          simp [hg, hn]
  · rw [if_neg hd]
    left; rfl

/-- C1: a position update processed while the button is held, whose
distance from furthest_position exceeds twice the spacing threshold
(stated in squares), paints exactly n dots, n the integer part of
distance / spacing (characterized by n * spacing <= distance <
(n + 1) * spacing, stated in squares), at interpolation fractions k / n
for k = n down to 1 between mouse_prev_position and the new position. -/
theorem stroke_substep_interpolation
    (gdc : Vec2 → Vec2 → Option (List PyFloat) × Option Vec3) (cleanup : BData → BData)
    (s : OpState) (sc : Scene) (pos : Vec2) (n : ℕ)
    (hpress : s.pressing = true)
    (hsp : 0 < sc.flowmap_brush_spacing)
    (hfast : 4 * sc.flowmap_brush_spacing ^ 2 < distSq s.furthest_position pos)
    (hn1 : (n : ℚ) ^ 2 * sc.flowmap_brush_spacing ^ 2 ≤ distSq s.furthest_position pos)
    (hn2 : distSq s.furthest_position pos < ((n : ℚ) + 1) ^ 2 * sc.flowmap_brush_spacing ^ 2) :
    (modal gdc cleanup s sc (Event.mousemove pos)).2.2.1 =
      (List.range n).map
        (fun j => vlerp (((n - j : ℕ) : ℚ) / (n : ℚ)) s.mouse_prev_position pos) := by
  have hge : sc.flowmap_brush_spacing ^ 2 ≤ distSq s.furthest_position pos := by
    nlinarith [sq_nonneg sc.flowmap_brush_spacing]
  have hsub : substepsInt (distSq s.furthest_position pos) sc.flowmap_brush_spacing = n :=
    substepsInt_eq hsp hn1 hn2
  simp only [modal]
  rw [if_pos hge]
  simp only [hpress, if_true, if_pos hfast, hsub, paintSubsteps_eq_range]

theorem stroke_substep_interpolation_witness :
    (⟨⟨0, 0⟩, ⟨0, 0⟩, true⟩ : OpState).pressing = true ∧
    (0 : ℚ) < 10 ∧
    4 * (10 : ℚ) ^ 2 < distSq ⟨0, 0⟩ ⟨52, 0⟩ ∧
    ((5 : ℕ) : ℚ) ^ 2 * (10 : ℚ) ^ 2 ≤ distSq ⟨0, 0⟩ ⟨52, 0⟩ ∧
    distSq ⟨0, 0⟩ ⟨52, 0⟩ < (((5 : ℕ) : ℚ) + 1) ^ 2 * (10 : ℚ) ^ 2 ∧
    (modal (fun _ _ => (none, none)) id ⟨⟨0, 0⟩, ⟨0, 0⟩, true⟩ ⟨10, [], ⟨[], []⟩⟩
        (Event.mousemove ⟨52, 0⟩)).2.2.1 =
      (List.range 5).map (fun j => vlerp (((5 - j : ℕ) : ℚ) / ((5 : ℕ) : ℚ)) ⟨0, 0⟩ ⟨52, 0⟩) :=
  ⟨rfl, by norm_num, by norm_num [distSq], by norm_num [distSq], by norm_num [distSq],
    stroke_substep_interpolation _ _ _ _ _ 5 rfl (by norm_num) (by norm_num [distSq])
      (by norm_num [distSq]) (by norm_num [distSq])⟩

/-- C7: evaluation of the cancel path at a concrete session.  Startup on an
active object named Cube triangulates into a mesh data-block the host names
Cube.002 (new_from_object derives the name from the template data; no mesh
is ever named FLOWMAP_temp_mesh).  On ESC the brush color is reset to
(0.5, 0.5, 0.5) and remove_temp_obj runs, which removes only the object
FLOWMAP_temp_obj: the triangulated mesh Cube.002 (and the copy Cube.001)
remain in bpy.data.meshes, and a repeated removal succeeds without error
and without change. -/
theorem cancel_at_failing_input :
    (modal (fun _ _ => (none, none)) remove_temp_obj_fn ⟨⟨0, 0⟩, ⟨0, 0⟩, false⟩
        ⟨20, [], (triangulate_object "Cube.001" "Cube.001" "Cube.002" ⟨["Cube"], ["Cube"]⟩).1⟩
        Event.esc).2.1 =
      ⟨20, [PyFloat.fin (1 / 2), PyFloat.fin (1 / 2), PyFloat.fin (1 / 2)],
        ⟨["Cube", "Cube.001", "Cube.002"], ["Cube"]⟩⟩ ∧
    "Cube.002" ∈ (⟨["Cube", "Cube.001", "Cube.002"], ["Cube"]⟩ : BData).meshes ∧
    remove_temp_obj ⟨["Cube", "Cube.001", "Cube.002"], ["Cube"]⟩ =
      Except.ok ⟨["Cube", "Cube.001", "Cube.002"], ["Cube"]⟩ := by
  refine ⟨rfl, by decide, ?_⟩
  rw [remove_temp_obj_ok]
  exact congrArg Except.ok (by decide)

/-- C2 counterexample: the screen-space encoder, at coincident current and
previous positions (zero direction vector, so numpy computes norm 0), does
not return None: it substitutes the zero vector and returns the color
(0.5, 0.5, 0). -/
theorem screen_space_zero_norm_counterexample :
    FLOWMAP_OT_image_editor.get_direction_color ⟨3, 4⟩ ⟨3, 4⟩ 0 =
      ([1 / 2, 1 / 2, 0], none) := by
  unfold FLOWMAP_OT_image_editor.get_direction_color
  norm_num

/-- C2 amended: at coincident positions the UV-space, object-space and
world-space encoders return None (given the call completes: for UV the
line trace must not raise, for object and world space the active object
must be a mesh), while the screen-space encoder instead returns the color
(0.5, 0.5, 0).  The norm argument 0 is the value numpy.linalg.norm gives
the zero direction vector. -/
theorem zero_length_direction_amended :
    (∀ p : Vec2,
      FLOWMAP_OT_image_editor.get_direction_color p p 0 = ([1 / 2, 1 / 2, 0], none)) ∧
    (∀ (bary : Bary) (ray : Ray) (active : ObjInfo) (tri : MeshData) (p : Vec2)
        (r : Option Vec3 × Option Vec3),
        line_trace_for_uv bary ray active tri p = Except.ok r →
        get_uv_space_direction_color bary ray active tri p p 0 = Except.ok (none, none)) ∧
    (∀ (ray : Ray) (active : ObjInfo) (fo : Option ObjInfo) (p : Vec2),
        active.type = "MESH" →
        get_obj_space_direction_color ray active fo p p 0 = Except.ok (none, none)) ∧
    (∀ (ray : Ray) (active : ObjInfo) (p : Vec2),
        active.type = "MESH" →
        get_world_space_direction_color ray active p p 0 = Except.ok (none, none)) := by
  refine ⟨?_, ?_, ?_, ?_⟩
  · intro p
    unfold FLOWMAP_OT_image_editor.get_direction_color
    norm_num
  · intro bary ray active tri p r h
    unfold get_uv_space_direction_color
    rw [h]
    cases hr : r.1 with
    | none => simp [hr]
    | some up => simp [hr]
  · intro ray active fo p h
    unfold get_obj_space_direction_color line_trace_for_pos
    rw [if_pos h]
    cases hr : ray p with
    | none => simp [hr]
    | some hb => simp [hr]
  · intro ray active p h
    unfold get_world_space_direction_color line_trace_for_pos
    rw [if_pos h]
    cases hr : ray p with
    | none => simp [hr]
    | some hb => simp [hr]

theorem zero_length_direction_amended_witness :
    line_trace_for_uv (fun p _ _ _ _ _ _ => p) (fun _ => none) ⟨"MESH", id, id⟩
        ⟨[], [], none⟩ ⟨1, 2⟩ = Except.ok (none, none) ∧
    get_uv_space_direction_color (fun p _ _ _ _ _ _ => p) (fun _ => none) ⟨"MESH", id, id⟩
        ⟨[], [], none⟩ ⟨1, 2⟩ ⟨1, 2⟩ 0 = Except.ok (none, none) ∧
    (⟨"MESH", id, id⟩ : ObjInfo).type = "MESH" ∧
    get_obj_space_direction_color (fun a => some (⟨a.x, a.y, 0⟩, 0)) ⟨"MESH", id, id⟩ none
        ⟨1, 2⟩ ⟨1, 2⟩ 0 = Except.ok (none, none) ∧
    get_world_space_direction_color (fun a => some (⟨a.x, a.y, 0⟩, 0)) ⟨"MESH", id, id⟩
        ⟨1, 2⟩ ⟨1, 2⟩ 0 = Except.ok (none, none) ∧
    FLOWMAP_OT_image_editor.get_direction_color ⟨7, 7⟩ ⟨7, 7⟩ 0 = ([1 / 2, 1 / 2, 0], none) :=
  ⟨rfl,
    zero_length_direction_amended.2.1 _ _ _ _ _ (none, none) rfl,
    rfl,
    zero_length_direction_amended.2.2.1 _ _ none _ rfl,
    zero_length_direction_amended.2.2.2 _ _ _ rfl,
    zero_length_direction_amended.1 ⟨7, 7⟩⟩

/-- C3: whenever an encoder variant returns a color, every channel lies in
[0, 1]: each used channel is (unit + 1) * 0.5 for a component of the
normalized direction vector (characterized by the norm hypotheses), and the
unused z channel of the 2D variants is 0.  The screen-space conjunct is
stated for non-coincident positions as the claim does; the 3D conjuncts
are conditioned on the line traces and on the returned value. -/
theorem encoded_channels_in_unit_interval :
    (∀ (mouse mouse_prev : Vec2) (n : ℚ), 0 ≤ n → n ^ 2 = distSq mouse mouse_prev →
        mouse ≠ mouse_prev →
        ∀ c ∈ (FLOWMAP_OT_image_editor.get_direction_color mouse mouse_prev n).1,
          0 ≤ c ∧ c ≤ 1) ∧
    (∀ (bary : Bary) (ray : Ray) (active : ObjInfo) (tri : MeshData)
        (pos prev : Vec2) (n : ℚ) (up upp : Vec3) (w1 w2 : Option Vec3),
        line_trace_for_uv bary ray active tri pos = Except.ok (some up, w1) →
        line_trace_for_uv bary ray active tri prev = Except.ok (some upp, w2) →
        0 ≤ n → n ^ 2 = (up.x - upp.x) ^ 2 + (up.y - upp.y) ^ 2 →
        ∀ col loc, get_uv_space_direction_color bary ray active tri pos prev n =
            Except.ok (some col, loc) → ∀ c ∈ col, 0 ≤ c ∧ c ≤ 1) ∧
    (∀ (ray : Ray) (active : ObjInfo) (fo : Option ObjInfo) (pos prev : Vec2) (n : ℚ)
        (l1 l2 : Option Vec3) (hw phw : Vec3),
        line_trace_for_pos ray active pos = some (l1, some hw) →
        line_trace_for_pos ray active prev = some (l2, some phw) →
        0 ≤ n →
        n ^ 2 = dist3Sq ((objOf fo active).matrix_world_inv hw)
            ((objOf fo active).matrix_world_inv phw) →
        ∀ col loc, get_obj_space_direction_color ray active fo pos prev n =
            Except.ok (some col, loc) → ∀ c ∈ col, 0 ≤ c ∧ c ≤ 1) ∧
    (∀ (ray : Ray) (active : ObjInfo) (pos prev : Vec2) (n : ℚ)
        (l1 l2 : Option Vec3) (hw phw : Vec3),
        line_trace_for_pos ray active pos = some (l1, some hw) →
        line_trace_for_pos ray active prev = some (l2, some phw) →
        0 ≤ n → n ^ 2 = dist3Sq hw phw →
        ∀ col loc, get_world_space_direction_color ray active pos prev n =
            Except.ok (some col, loc) → ∀ c ∈ col, 0 ≤ c ∧ c ≤ 1) := by
  refine ⟨?_, ?_, ?_, ?_⟩
  · intro mouse mouse_prev n hn0 hnsq hne c hc
    have hdpos : 0 < distSq mouse mouse_prev := by
      rcases lt_or_eq_of_le (distSq_nonneg mouse mouse_prev) with h | h
      · exact h
      · exact absurd ((distSq_eq_zero_iff mouse mouse_prev).mp h.symm) hne
    have hnne : n ≠ 0 := by
      intro h0
      rw [h0] at hnsq
      simp at hnsq
      linarith
    unfold FLOWMAP_OT_image_editor.get_direction_color at hc
    simp only [if_neg hnne, List.mem_cons, List.not_mem_nil, or_false] at hc
    unfold distSq at hnsq
    rcases hc with rfl | rfl | rfl
    · exact chan_bound hn0 hnne (by nlinarith [sq_nonneg (mouse.y - mouse_prev.y)])
    · exact chan_bound hn0 hnne (by nlinarith [sq_nonneg (mouse.x - mouse_prev.x)])
    · norm_num
  · intro bary ray active tri pos prev n up upp w1 w2 h1 h2 hn0 hnsq col loc hres c hc
    unfold get_uv_space_direction_color at hres
    rw [h1, h2] at hres
    by_cases hzero : n = 0
    · simp [hzero] at hres
    · simp only [if_neg hzero] at hres
      simp only [Except.ok.injEq, Prod.mk.injEq, Option.some.injEq] at hres
      obtain ⟨hcol, hloc⟩ := hres
      rw [← hcol] at hc
      simp only [List.mem_cons, List.not_mem_nil, or_false] at hc
      rcases hc with rfl | rfl | rfl
      · exact chan_bound hn0 hzero (by nlinarith [sq_nonneg (up.y - upp.y)])
      · exact chan_bound hn0 hzero (by nlinarith [sq_nonneg (up.x - upp.x)])
      · norm_num
  · intro ray active fo pos prev n l1 l2 hw phw h1 h2 hn0 hnsq col loc hres c hc
    unfold get_obj_space_direction_color at hres
    rw [h1, h2] at hres
    unfold dist3Sq at hnsq
    by_cases hzero : n = 0
    · simp [hzero] at hres
    · simp only [if_neg hzero] at hres
      simp only [Except.ok.injEq, Prod.mk.injEq, Option.some.injEq] at hres
      obtain ⟨hcol, hloc⟩ := hres
      rw [← hcol] at hc
      simp only [List.mem_cons, List.not_mem_nil, or_false] at hc
      set ho := (objOf fo active).matrix_world_inv hw
      set hp := (objOf fo active).matrix_world_inv phw
      rcases hc with rfl | rfl | rfl
      · exact chan_bound hn0 hzero (by nlinarith [sq_nonneg (ho.y - hp.y), sq_nonneg (ho.z - hp.z)])
      · exact chan_bound hn0 hzero (by nlinarith [sq_nonneg (ho.x - hp.x), sq_nonneg (ho.z - hp.z)])
      · exact chan_bound hn0 hzero (by nlinarith [sq_nonneg (ho.x - hp.x), sq_nonneg (ho.y - hp.y)])
  · intro ray active pos prev n l1 l2 hw phw h1 h2 hn0 hnsq col loc hres c hc
    unfold get_world_space_direction_color at hres
    rw [h1, h2] at hres
    unfold dist3Sq at hnsq
    by_cases hzero : n = 0
    · simp [hzero] at hres
    · simp only [if_neg hzero] at hres
      simp only [Except.ok.injEq, Prod.mk.injEq, Option.some.injEq] at hres
      obtain ⟨hcol, hloc⟩ := hres
      rw [← hcol] at hc
      simp only [List.mem_cons, List.not_mem_nil, or_false] at hc
      rcases hc with rfl | rfl | rfl
      · exact chan_bound hn0 hzero (by nlinarith [sq_nonneg (hw.y - phw.y), sq_nonneg (hw.z - phw.z)])
      · exact chan_bound hn0 hzero (by nlinarith [sq_nonneg (hw.x - phw.x), sq_nonneg (hw.z - phw.z)])
      · exact chan_bound hn0 hzero (by nlinarith [sq_nonneg (hw.x - phw.x), sq_nonneg (hw.y - phw.y)])

theorem encoded_channels_in_unit_interval_witness :
    ((10 : ℚ) ^ 2 = distSq ⟨10, 0⟩ ⟨0, 0⟩) ∧
    ((5 : ℚ) ^ 2 = ((⟨3, 4, 0⟩ : Vec3).x - (⟨0, 0, 0⟩ : Vec3).x) ^ 2 +
      ((⟨3, 4, 0⟩ : Vec3).y - (⟨0, 0, 0⟩ : Vec3).y) ^ 2) ∧
    (∀ c ∈ (FLOWMAP_OT_image_editor.get_direction_color ⟨10, 0⟩ ⟨0, 0⟩ 10).1,
        0 ≤ c ∧ c ≤ 1) ∧
    (∀ c ∈ [((3 - 0 : ℚ) / 5 + 1) * (1 / 2), ((4 - 0 : ℚ) / 5 + 1) * (1 / 2), (0 : ℚ)],
        0 ≤ c ∧ c ≤ 1) ∧
    (∀ c ∈ [((3 - 0 : ℚ) / 5 + 1) * (1 / 2), ((4 - 0 : ℚ) / 5 + 1) * (1 / 2),
            ((0 - 0 : ℚ) / 5 + 1) * (1 / 2)],
        0 ≤ c ∧ c ≤ 1) ∧
    (∀ c ∈ [((0 - 0 : ℚ) / 5 + 1) * (1 / 2), ((3 - 0 : ℚ) / 5 + 1) * (1 / 2),
            ((4 - 0 : ℚ) / 5 + 1) * (1 / 2)],
        0 ≤ c ∧ c ≤ 1) :=
  ⟨by norm_num [distSq],
    by norm_num,
    encoded_channels_in_unit_interval.1 ⟨10, 0⟩ ⟨0, 0⟩ 10 (by norm_num)
      (by norm_num [distSq]) (by norm_num [Vec2.mk.injEq]),
    encoded_channels_in_unit_interval.2.1 (fun p _ _ _ _ _ _ => p)
      (fun a => some (⟨a.x, a.y, 0⟩, 0)) ⟨"MESH", id, id⟩
      ⟨[⟨[0, 1, 2], [0, 1, 2]⟩], [⟨0, 0, 0⟩, ⟨1, 0, 0⟩, ⟨0, 1, 0⟩],
        some [⟨0, 0⟩, ⟨1, 0⟩, ⟨0, 1⟩]⟩
      ⟨3, 4⟩ ⟨0, 0⟩ 5 ⟨3, 4, 0⟩ ⟨0, 0, 0⟩ (some ⟨3, 4, 0⟩) (some ⟨0, 0, 0⟩)
      rfl rfl (by norm_num) (by norm_num)
      [((3 - 0 : ℚ) / 5 + 1) * (1 / 2), ((4 - 0 : ℚ) / 5 + 1) * (1 / 2), (0 : ℚ)]
      (some ⟨3, 4, 0⟩) rfl,
    encoded_channels_in_unit_interval.2.2.1
      (fun a => some (⟨a.x, a.y, 0⟩, 0)) ⟨"MESH", id, id⟩ none
      ⟨3, 4⟩ ⟨0, 0⟩ 5 (some ⟨3, 4, 0⟩) (some ⟨0, 0, 0⟩) ⟨3, 4, 0⟩ ⟨0, 0, 0⟩
      rfl rfl (by norm_num) (by norm_num [objOf, dist3Sq])
      [((3 - 0 : ℚ) / 5 + 1) * (1 / 2), ((4 - 0 : ℚ) / 5 + 1) * (1 / 2),
        ((0 - 0 : ℚ) / 5 + 1) * (1 / 2)]
      (some ⟨3, 4, 0⟩) rfl,
    encoded_channels_in_unit_interval.2.2.2
      (fun a => some (⟨0, a.x, a.y⟩, 0)) ⟨"MESH", id, id⟩
      ⟨3, 4⟩ ⟨0, 0⟩ 5 (some ⟨0, 3, 4⟩) (some ⟨0, 0, 0⟩) ⟨0, 3, 4⟩ ⟨0, 0, 0⟩
      rfl rfl (by norm_num) (by norm_num [dist3Sq])
      [((0 - 0 : ℚ) / 5 + 1) * (1 / 2), ((3 - 0 : ℚ) / 5 + 1) * (1 / 2),
        ((4 - 0 : ℚ) / 5 + 1) * (1 / 2)]
      (some ⟨0, 3, 4⟩) rfl⟩

theorem pos_to_uv_co_missing_uv_raises (bary : Bary) (obj : MeshData) (mw : Vec3 → Vec3)
    (wp : Vec3) (fi : ℕ) (huv : obj.uv_layers_active = none) :
    ∃ e, pos_to_uv_co bary obj mw wp fi = Except.error e := by
  unfold pos_to_uv_co
  cases hpoly : obj.polygons.get? fi with
  | none => exact ⟨"IndexError", by simp⟩
  | some face =>
      cases hz : face.vertices.zip face.loop_indices with
      | nil =>
          refine ⟨"IndexError", ?_⟩
          simp [hz, pos_to_uv_co_loop]
      | cons pr rest =>
          refine ⟨"AttributeError", ?_⟩
          simp [hz, pos_to_uv_co_loop, huv]

/-- C6 counterexample: a concrete surface hit on a mesh carrying no active
UV layer makes the UV lookup raise AttributeError (the source reads
uv_layers.active.data with active being None); it does not return None. -/
theorem missing_uv_layer_counterexample :
    line_trace_for_uv (fun p _ _ _ _ _ _ => p) (fun _ => some (⟨0, 0, 0⟩, 0))
        ⟨"MESH", id, id⟩ ⟨[⟨[0, 1, 2], [0, 1, 2]⟩], [⟨0, 0, 0⟩, ⟨1, 0, 0⟩, ⟨0, 1, 0⟩], none⟩
        ⟨5, 5⟩ = Except.error "AttributeError" := rfl

/-- C6 amended: for every surface hit (the active object is a mesh and the
ray resolves the area position to a hit) on a mesh whose active UV layer is
absent, the UV lookup raises a Python exception that propagates out of
line_trace_for_uv; it yields neither a UV coordinate nor None. -/
theorem missing_uv_layer_raises (bary : Bary) (ray : Ray) (active : ObjInfo)
    (tri : MeshData) (p : Vec2) (hit : Vec3) (fi : ℕ)
    (htype : active.type = "MESH") (hray : ray p = some (hit, fi))
    (huv : tri.uv_layers_active = none) :
    ∃ e, line_trace_for_uv bary ray active tri p = Except.error e := by
  unfold line_trace_for_uv
  rw [if_pos htype, hray]
  obtain ⟨e, he⟩ := pos_to_uv_co_missing_uv_raises bary tri active.matrix_world
    (active.matrix_world hit) fi huv
  exact ⟨e, by simp [he]⟩

theorem missing_uv_layer_raises_witness :
    (⟨"MESH", id, id⟩ : ObjInfo).type = "MESH" ∧
    (⟨[⟨[0, 1, 2], [0, 1, 2]⟩], [⟨0, 0, 0⟩, ⟨1, 0, 0⟩, ⟨0, 1, 0⟩], none⟩ :
        MeshData).uv_layers_active = none ∧
    ∃ e, line_trace_for_uv (fun p _ _ _ _ _ _ => p) (fun _ => some (⟨0, 0, 0⟩, 0))
        ⟨"MESH", id, id⟩ ⟨[⟨[0, 1, 2], [0, 1, 2]⟩], [⟨0, 0, 0⟩, ⟨1, 0, 0⟩, ⟨0, 1, 0⟩], none⟩
        ⟨5, 5⟩ = Except.error e :=
  ⟨rfl, rfl,
    missing_uv_layer_raises (fun p _ _ _ _ _ _ => p) (fun _ => some (⟨0, 0, 0⟩, 0))
      ⟨"MESH", id, id⟩ ⟨[⟨[0, 1, 2], [0, 1, 2]⟩], [⟨0, 0, 0⟩, ⟨1, 0, 0⟩, ⟨0, 1, 0⟩], none⟩
      ⟨5, 5⟩ ⟨0, 0, 0⟩ 0 rfl rfl rfl⟩

/-- C10: when the active object is not a mesh, line_trace_for_pos returns a
bare None rather than a pair, and the object-space and world-space color
computations, which unpack its result into two variables, raise TypeError
instead of completing normally. -/
theorem non_mesh_trace_type_error (ray : Ray) (active : ObjInfo) (fo : Option ObjInfo)
    (p q : Vec2) (n : ℚ) (h : active.type ≠ "MESH") :
    line_trace_for_pos ray active p = none ∧
    get_obj_space_direction_color ray active fo p q n = Except.error "TypeError" ∧
    get_world_space_direction_color ray active p q n = Except.error "TypeError" := by
  have hl : ∀ r : Vec2, line_trace_for_pos ray active r = none := fun r => by
    unfold line_trace_for_pos
    rw [if_neg h]
  refine ⟨hl p, ?_, ?_⟩
  · unfold get_obj_space_direction_color
    rw [hl p]
  · unfold get_world_space_direction_color
    rw [hl p]

theorem non_mesh_trace_type_error_witness :
    (⟨"CURVE", id, id⟩ : ObjInfo).type ≠ "MESH" ∧
    line_trace_for_pos (fun _ => none) ⟨"CURVE", id, id⟩ ⟨1, 1⟩ = none ∧
    get_obj_space_direction_color (fun _ => none) ⟨"CURVE", id, id⟩ none ⟨1, 1⟩ ⟨2, 2⟩ 3 =
      Except.error "TypeError" ∧
    get_world_space_direction_color (fun _ => none) ⟨"CURVE", id, id⟩ ⟨1, 1⟩ ⟨2, 2⟩ 3 =
      Except.error "TypeError" :=
  ⟨by decide,
    (non_mesh_trace_type_error (fun _ => none) ⟨"CURVE", id, id⟩ none ⟨1, 1⟩ ⟨2, 2⟩ 3
      (by decide)).1,
    (non_mesh_trace_type_error (fun _ => none) ⟨"CURVE", id, id⟩ none ⟨1, 1⟩ ⟨2, 2⟩ 3
      (by decide)).2.1,
    (non_mesh_trace_type_error (fun _ => none) ⟨"CURVE", id, id⟩ none ⟨1, 1⟩ ⟨2, 2⟩ 3
      (by decide)).2.2⟩
